import Mathlib

/-!
Verification development for the Maya voice-assistant front-end.

The repository holds two revisions of the single-page application
(`src/unnamed/part_000`): a basic revision (lines 1-412) and an enhanced
revision (lines 413-854).  The definitions below are shallow embeddings of
the functions the specification's testable properties are about:

* `createBlob` (both revisions): float-sample → 16-bit PCM encoding;
* `stopSession` (both revisions): idempotent teardown of the live session;
* the `onmessage` audio-scheduling logic (`scheduleAll`), the interruption
  branch (`handleInterrupted`) and the turn-complete branch
  (`handleTurnComplete`);
* `onaudioprocess` capture handlers of both revisions;
* `startLiveSession` (enhanced revision) as a trace of intermediate states;
* `handleDeepPrompt` (both revisions) with the busy-flag gating;
* `addMessage` of the enhanced revision with its 50-message bound.

Browser time values (`AudioContext.currentTime`, buffer durations) and
float audio samples are modelled as rationals; multiplication by the power
of two 32768, `Math.min`/`Math.max` and truncation to an integer are exact
on the values involved, so the rational model is faithful for the claims
below.
-/

namespace Maya

/-! ### PCM encoding (`createBlob`, both revisions)

JavaScript assignment into an `Int16Array` performs the ECMAScript
`ToInt16` conversion: truncate the float toward zero, reduce modulo 2^16
and re-interpret the result in the signed 16-bit range. -/

/-- Truncation toward zero of a rational, as JavaScript number-to-integer
conversion does before the modular reduction. -/
def ratTrunc (q : ℚ) : ℤ :=
  if 0 ≤ q then ⌊q⌋ else ⌈q⌉

/-- The ECMAScript `ToInt16` abstract operation on an (already truncated-
rational) value: truncate toward zero, wrap modulo 2^16 into
[-32768, 32767]. -/
def toInt16 (q : ℚ) : ℤ :=
  if 32768 ≤ (ratTrunc q) % 65536 then (ratTrunc q) % 65536 - 65536
  else (ratTrunc q) % 65536

/-- One sample of the basic revision's `createBlob`
(`int16[i] = data[i] * 32768;`, part_000 line 12): scale, no clamping. -/
def sampleToInt16Basic (x : ℚ) : ℤ :=
  toInt16 (x * 32768)

/-- One sample of the enhanced revision's `createBlob`
(`int16[i] = Math.max(-32768, Math.min(32767, data[i] * 32768));`,
part_000 line 423): scale, clamp to the signed 16-bit bounds. -/
def sampleToInt16Enh (x : ℚ) : ℤ :=
  toInt16 (max (-32768) (min 32767 (x * 32768)))

/-- Little-endian two's-complement byte serialization of one 16-bit value,
as laid out by `new Uint8Array(int16.buffer)`. -/
def int16Bytes (v : ℤ) : List ℕ :=
  let n := (v % 65536).toNat
  [n % 256, n / 256]

/-- Byte serialization of a whole `Int16Array` buffer. -/
def int16ListBytes (l : List ℤ) : List ℕ :=
  (l.map int16Bytes).flatten

/-- The value `createBlob` returns: the PCM bytes (the source further
base64-encodes them with the external `encode` utility, a function of the
bytes) and the MIME tag. -/
structure PcmBlob where
  dataBytes : List ℕ
  mimeType : String
  deriving Repr, DecidableEq

/-- `createBlob` of the basic revision (part_000 lines 8-18). -/
def createBlobBasic (data : List ℚ) : PcmBlob :=
  { dataBytes := int16ListBytes (data.map sampleToInt16Basic)
    mimeType := "audio/pcm;rate=16000" }

/-- `createBlob` of the enhanced revision (part_000 lines 419-429). -/
def createBlobEnh (data : List ℚ) : PcmBlob :=
  { dataBytes := int16ListBytes (data.map sampleToInt16Enh)
    mimeType := "audio/pcm;rate=16000" }

/-! Helper lemmas about the conversion. -/

theorem ratTrunc_le_of_le {q : ℚ} {b : ℤ} (hb : 0 ≤ b) (h : q ≤ (b : ℚ)) :
    ratTrunc q ≤ b := by
  unfold ratTrunc
  split
  · have h1 : ⌊q⌋ ≤ ⌊(b : ℚ)⌋ := Int.floor_le_floor h
    simpa using h1
  · have hq : q ≤ 0 := le_of_not_le (by simpa using ‹¬0 ≤ q›)
    calc ⌈q⌉ ≤ ⌈(0 : ℚ)⌉ := Int.ceil_le_ceil hq
    _ = 0 := by simp
    _ ≤ b := hb

theorem le_ratTrunc_of_le {q : ℚ} {b : ℤ} (hb : b ≤ 0) (h : (b : ℚ) ≤ q) :
    b ≤ ratTrunc q := by
  unfold ratTrunc
  split
  · have h1 : ⌊(0 : ℚ)⌋ ≤ ⌊q⌋ := Int.floor_le_floor ‹0 ≤ q›
    simp only [Int.floor_zero] at h1
    omega
  · have h1 : ⌈(b : ℚ)⌉ ≤ ⌈q⌉ := Int.ceil_le_ceil h
    simpa using h1

/-- On values already inside the signed 16-bit range the `ToInt16`
conversion is plain truncation: no wrap occurs. -/
theorem toInt16_eq_ratTrunc {q : ℚ} (h1 : (-32768 : ℚ) ≤ q)
    (h2 : q ≤ 32767) : toInt16 q = ratTrunc q := by
  have hlo : (-32768 : ℤ) ≤ ratTrunc q := le_ratTrunc_of_le (by norm_num) (by exact_mod_cast h1)
  have hhi : ratTrunc q ≤ 32767 := ratTrunc_le_of_le (by norm_num) (by exact_mod_cast h2)
  unfold toInt16
  omega

theorem ratTrunc_intCast (n : ℤ) : ratTrunc (n : ℚ) = n := by
  unfold ratTrunc
  split <;> simp

theorem toInt16_intCast (n : ℤ) (h1 : -32768 ≤ n) (h2 : n ≤ 32767) :
    toInt16 (n : ℚ) = n := by
  unfold toInt16
  rw [ratTrunc_intCast]
  omega

/-- The clamped value fed to `ToInt16` in the enhanced `createBlob` always
lies inside the signed 16-bit range, so the conversion never wraps. -/
theorem sampleToInt16Enh_mem (x : ℚ) :
    -32768 ≤ sampleToInt16Enh x ∧ sampleToInt16Enh x ≤ 32767 := by
  unfold sampleToInt16Enh
  set c : ℚ := max (-32768) (min 32767 (x * 32768)) with hc
  have hlo : (-32768 : ℚ) ≤ c := le_max_left _ _
  have hhi : c ≤ 32767 := max_le (by norm_num) (min_le_left _ _)
  rw [toInt16_eq_ratTrunc hlo hhi]
  constructor
  · exact le_ratTrunc_of_le (by norm_num) (by exact_mod_cast hlo)
  · exact ratTrunc_le_of_le (by norm_num) (by exact_mod_cast hhi)

/-- On samples whose scaled value stays inside the representable range the
clamp of the enhanced revision is the identity, so both revisions encode
the sample identically. -/
theorem sample_basic_eq_enh {x : ℚ} (h1 : -1 ≤ x) (h2 : x ≤ 32767 / 32768) :
    sampleToInt16Basic x = sampleToInt16Enh x := by
  unfold sampleToInt16Basic sampleToInt16Enh
  have hv1 : (-32768 : ℚ) ≤ x * 32768 := by linarith
  have hv2 : x * 32768 ≤ 32767 := by linarith
  rw [min_eq_right hv2, max_eq_right hv1]

/-- C4: the enhanced (clamped) float-to-16-bit PCM encoder scales each
sample by 32768 and clamps to the signed 16-bit range: a sample of exactly
1.0, and any sample above it, encodes to the maximum value 32767 (never
wrapping to a negative 16-bit value); a sample of -1.0 encodes to -32768;
every encoded value lies in [-32768, 32767]. -/
theorem pcm_encoder_clamps :
    sampleToInt16Enh 1 = 32767 ∧
    (∀ x : ℚ, 1 ≤ x → sampleToInt16Enh x = 32767) ∧
    sampleToInt16Enh (-1) = -32768 ∧
    (∀ x : ℚ, -32768 ≤ sampleToInt16Enh x ∧ sampleToInt16Enh x ≤ 32767) := by
  have hup : ∀ x : ℚ, 1 ≤ x → sampleToInt16Enh x = 32767 := by
    intro x hx
    unfold sampleToInt16Enh
    have h1 : (32767 : ℚ) ≤ x * 32768 := by linarith
    rw [min_eq_left h1, max_eq_right (by norm_num : (-32768 : ℚ) ≤ 32767)]
    have : ((32767 : ℤ) : ℚ) = (32767 : ℚ) := by norm_num
    rw [← this, toInt16_intCast] <;> norm_num
  refine ⟨hup 1 le_rfl, hup, ?_, sampleToInt16Enh_mem⟩
  unfold sampleToInt16Enh
  have h1 : (-1 : ℚ) * 32768 = -32768 := by norm_num
  rw [h1, min_eq_right (by norm_num), max_self]
  have h2 : ((-32768 : ℤ) : ℚ) = (-32768 : ℚ) := by norm_num
  rw [← h2, toInt16_intCast] <;> norm_num

/-- Witness for `pcm_encoder_clamps`: the universally quantified clamping
conjunct evaluated at the concrete over-range sample 3/2. -/
theorem pcm_encoder_clamps_witness :
    (1 : ℚ) ≤ 3 / 2 ∧ sampleToInt16Enh (3 / 2) = 32767 :=
  ⟨by norm_num, pcm_encoder_clamps.2.1 (3 / 2) (by norm_num)⟩

/-- C10: on inputs all of whose samples lie in [-1, 32767/32768] the
unclamped (basic) and clamped (enhanced) `createBlob` produce byte-for-byte
identical PCM payloads (hence identical base64 output, the base64 step
being a function of the bytes); whenever the two encoders disagree on a
sample, that sample lies outside this range. -/
theorem createBlob_refinement (data : List ℚ)
    (h : ∀ x ∈ data, -1 ≤ x ∧ x ≤ 32767 / 32768) :
    createBlobBasic data = createBlobEnh data ∧
    (∀ x : ℚ, sampleToInt16Basic x ≠ sampleToInt16Enh x →
      ¬(-1 ≤ x ∧ x ≤ 32767 / 32768)) := by
  constructor
  · unfold createBlobBasic createBlobEnh
    have hmap : data.map sampleToInt16Basic = data.map sampleToInt16Enh := by
      apply List.map_congr_left
      intro x hx
      exact sample_basic_eq_enh (h x hx).1 (h x hx).2
    rw [hmap]
  · intro x hne hmem
    exact hne (sample_basic_eq_enh hmem.1 hmem.2)

/-- Witness for `createBlob_refinement`: both encoders agree byte-for-byte
on the concrete in-range input [1/2, -1, 0]. -/
theorem createBlob_refinement_witness :
    createBlobBasic [1 / 2, -1, 0] = createBlobEnh [1 / 2, -1, 0] :=
  (createBlob_refinement [1 / 2, -1, 0] (by
    intro x hx
    simp only [List.mem_cons, List.mem_singleton, List.not_mem_nil, or_false] at hx
    rcases hx with h | h | h <;> subst h <;> norm_num)).1

/-! ### Playback scheduling (`onmessage` audio branch, both revisions)

Lines 179/194-195 (basic) and 612/621-622 (enhanced):
`nextStartTimeRef.current = Math.max(nextStartTimeRef.current, ctx.currentTime);`
… `source.start(nextStartTimeRef.current); nextStartTimeRef.current += audioBuffer.duration;`
With no intervening interruption the chunks are processed sequentially, so
the handler is a fold over the arriving chunks. -/

/-- One received audio chunk: the decoded buffer's duration together with
the output clock value (`outputCtx.currentTime`) observed when the chunk is
processed. -/
structure Chunk where
  duration : ℚ
  clockNow : ℚ
  deriving Repr, DecidableEq

/-- The scheduling fold of the `onmessage` audio branch: each chunk is
started at `max cursor clockNow` and the cursor then advances by the
chunk's duration.  Returns the (startTime, duration) pair of every
scheduled chunk in order. -/
def scheduleAll (cursor : ℚ) : List Chunk → List (ℚ × ℚ)
  | [] => []
  | c :: cs =>
      (max cursor c.clockNow, c.duration) ::
        scheduleAll (max cursor c.clockNow + c.duration) cs

theorem scheduleAll_head_ge (cursor : ℚ) (cs : List Chunk) :
    ∀ p ∈ (scheduleAll cursor cs).head?, cursor ≤ p.1 := by
  cases cs with
  | nil => simp [scheduleAll]
  | cons c cs =>
      intro p hp
      simp only [scheduleAll, List.head?_cons, Option.mem_def,
        Option.some.injEq] at hp
      subst hp
      exact le_max_left _ _

theorem scheduleAll_chain (cursor : ℚ) (cs : List Chunk)
    (hd : ∀ c ∈ cs, 0 ≤ c.duration) :
    List.Chain' (fun a b : ℚ × ℚ => a.1 + a.2 ≤ b.1 ∧ a.1 ≤ b.1)
      (scheduleAll cursor cs) := by
  induction cs generalizing cursor with
  | nil => simp [scheduleAll]
  | cons c cs ih =>
      simp only [scheduleAll]
      refine List.Chain'.cons' (ih _ fun c hc => hd c (List.mem_cons_of_mem _ hc)) ?_
      intro p hp
      have h1 := scheduleAll_head_ge (max cursor c.clockNow + c.duration) cs p hp
      have h2 : 0 ≤ c.duration := hd c (List.mem_cons_self c cs)
      exact ⟨h1, by linarith⟩

/-- C2: with no intervening interruption, every chunk starts at
`max cursor clockNow` and the cursor advances by the chunk duration, so
(for nonnegative buffer durations) consecutive scheduled start times are
non-decreasing and each start is at least the previous start plus the
previous duration (no overlap); two sequential chunks of duration 1/2 are
scheduled exactly 1/2 apart whenever the output clock has not passed the
cursor at the second chunk. -/
theorem playback_schedule_ordered (cursor : ℚ) (cs : List Chunk)
    (hd : ∀ c ∈ cs, 0 ≤ c.duration) :
    List.Chain' (fun a b : ℚ × ℚ => a.1 + a.2 ≤ b.1) (scheduleAll cursor cs) ∧
    List.Chain' (fun a b : ℚ × ℚ => a.1 ≤ b.1) (scheduleAll cursor cs) ∧
    (∀ t1 t2 : ℚ, t2 ≤ max cursor t1 + 1 / 2 →
      scheduleAll cursor [⟨1 / 2, t1⟩, ⟨1 / 2, t2⟩] =
        [(max cursor t1, 1 / 2), (max cursor t1 + 1 / 2, 1 / 2)]) := by
  have h := scheduleAll_chain cursor cs hd
  refine ⟨h.imp fun _ _ hab => hab.1, h.imp fun _ _ hab => hab.2, ?_⟩
  intro t1 t2 ht
  simp only [scheduleAll]
  rw [max_eq_left ht]

/-- Witness for `playback_schedule_ordered`: the concrete two-chunk 0.5 s
scenario of the spec, starting from cursor 0 with the clock at 0. -/
theorem playback_schedule_ordered_witness :
    scheduleAll 0 [⟨1 / 2, 0⟩, ⟨1 / 2, 0⟩] = [(0, 1 / 2), (1 / 2, 1 / 2)] := by
  have h := (playback_schedule_ordered 0 [⟨1 / 2, 0⟩, ⟨1 / 2, 0⟩]
    (by intro c hc; simp only [List.mem_cons, List.not_mem_nil, or_false] at hc
        rcases hc with h | h <;> subst h <;> norm_num)).2.2 0 0
    (by simp)
  simpa using h

/-! ### Live-session state

The mutable refs of the React component, plus the set of microphone tracks
not yet stopped (world state, used to count concurrent acquisitions). -/

/-- State of a browser `AudioContext`. -/
inductive CtxState where
  | running
  | suspended
  | closed
  deriving Repr, DecidableEq

/-- A browser `AudioContext` as held in `inputAudioCtxRef` /
`outputAudioCtxRef`. -/
structure AudioCtx where
  ctxState : CtxState
  deriving Repr, DecidableEq

/-- A `MediaStream` from `getUserMedia`, carrying its microphone track id. -/
structure MicStream where
  trackId : ℕ
  deriving Repr, DecidableEq

/-- The opaque remote-session handle (`sessionRef`); `closeRaises` models
whether its `close()` call raises. -/
structure Session where
  closeRaises : Bool
  deriving Repr, DecidableEq

/-- An `AudioBufferSourceNode` held in `sourcesRef`. -/
structure Source where
  startTime : ℚ
  duration : ℚ
  finished : Bool
  stopped : Bool
  deriving Repr, DecidableEq

/-- Model of `AudioBufferSourceNode.stop()`: the call can raise (e.g. on a
source that already finished); both revisions wrap it in `try { s.stop(); }
catch (e) {}`. -/
def sourceStop (s : Source) : Except String Source :=
  if s.finished then Except.error "InvalidStateError"
  else Except.ok { s with stopped := true }

/-- `try { s.stop(); } catch (e) {}`: total, the raise is swallowed. -/
def tryStop (s : Source) : Source :=
  match sourceStop s with
  | Except.ok s2 => s2
  | Except.error _ => s

/-- Model of `session.close()`: may raise; both revisions call it inside a
try/catch. -/
def sessionClose (s : Session) : Except String Unit :=
  if s.closeRaises then Except.error "close failed" else Except.ok ()

/-- The component's mutable refs plus UI flags, and the ids of microphone
tracks acquired and not yet stopped (`liveMicTracks`). -/
structure AppState where
  isActive : Bool
  inputLevel : ℚ
  session : Option Session
  stream : Option MicStream
  inputAudioCtx : Option AudioCtx
  outputAudioCtx : Option AudioCtx
  sources : List Source
  nextStartTime : ℚ
  liveMicTracks : List ℕ
  deriving Repr, DecidableEq

/-- `stopSession` of the basic revision (part_000 lines 53-91): clear the
session ref then close the handle (error caught), stop the microphone
tracks and drop the stream, close and drop both audio contexts, stop every
playback source (raises caught), clear the set, zero the cursor.  Every
step tolerates the resource being absent, so the function is total. -/
def stopSession (st : AppState) : AppState :=
  let st1 := { st with isActive := false, inputLevel := 0 }
  let st2 :=
    match st1.session with
    | some s =>
        -- sessionRef.current = null; try { session.close?.() } catch …
        let _ := sessionClose s
        { st1 with session := none }
    | none => st1
  let st3 :=
    match st2.stream with
    | some m =>
        { st2 with
            liveMicTracks := st2.liveMicTracks.filter (fun t => t ≠ m.trackId)
            stream := none }
    | none => st2
  let st4 :=
    match st3.inputAudioCtx with
    | some _ => { st3 with inputAudioCtx := none }  -- close if not closed
    | none => st3
  let st5 :=
    match st4.outputAudioCtx with
    | some _ => { st4 with outputAudioCtx := none }
    | none => st4
  let _stopped := st5.sources.map tryStop
  { st5 with sources := [], nextStartTime := 0 }

/-- `stopSession` of the enhanced revision (part_000 lines 543-567): same
steps (close awaited before the ref is cleared, errors caught), same
resulting state. -/
def stopSessionEnh (st : AppState) : AppState :=
  let st1 := { st with isActive := false, inputLevel := 0 }
  let st2 :=
    match st1.session with
    | some s =>
        -- try { await session.close(); } catch (e) {}; sessionRef.current = null
        let _ := sessionClose s
        { st1 with session := none }
    | none => st1
  let st3 :=
    match st2.stream with
    | some m =>
        { st2 with
            liveMicTracks := st2.liveMicTracks.filter (fun t => t ≠ m.trackId)
            stream := none }
    | none => st2
  let st4 :=
    match st3.inputAudioCtx with
    | some _ => { st3 with inputAudioCtx := none }
    | none => st3
  let st5 :=
    match st4.outputAudioCtx with
    | some _ => { st4 with outputAudioCtx := none }
    | none => st4
  let _stopped := st5.sources.map tryStop
  { st5 with sources := [], nextStartTime := 0 }

/-- The interruption branch of `onmessage` (basic lines 200-206, enhanced
lines 625-630): stop every active source (each `stop()` wrapped in
try/catch), clear the active set, reset the cursor to 0.  Also returns the
sources as acted upon by the `forEach`. -/
def handleInterrupted (st : AppState) : AppState × List Source :=
  let stopped := st.sources.map tryStop
  ({ st with sources := [], nextStartTime := 0 }, stopped)

/-- Mean square of a capture frame; the source displays
`Math.sqrt(sum / inputData.length)` as the UI level — the square root is a
strictly monotone UI-only transform kept out of the rational model. -/
def meanSquare (frame : List ℚ) : ℚ :=
  (frame.map (fun x => x * x)).sum / frame.length

/-- `onaudioprocess` of the basic revision (part_000 lines 132-146):
update the input level, encode the frame, and send it only when
`sessionRef.current` is still set; returns the blob handed to
`sendRealtimeInput`, or `none` when the frame is dropped. -/
def onAudioProcessBasic (st : AppState) (frame : List ℚ) :
    AppState × Option PcmBlob :=
  ({ st with inputLevel := meanSquare frame },
    if st.session.isSome then some (createBlobBasic frame) else none)

/-- `onaudioprocess` of the enhanced revision (part_000 lines 596-603):
update the input level, encode the frame, and hand it to the resolved
session promise unconditionally — there is no `sessionRef.current` guard,
so the blob is sent even after teardown cleared the ref. -/
def onAudioProcessEnh (st : AppState) (frame : List ℚ) :
    AppState × Option PcmBlob :=
  ({ st with inputLevel := meanSquare frame }, some (createBlobEnh frame))

/-- `startLiveSession` of the enhanced revision (part_000 lines 569-582)
as the sequence of states it passes through: `await stopSession()` first,
then `setIsActive(true)`, then create both audio contexts, then
`getUserMedia` (a fresh microphone track becomes live), then store the
connected session handle.  The initial state is not part of the trace. -/
def startTrace (st : AppState) (newIn newOut : AudioCtx) (micId : ℕ)
    (sess : Session) : List AppState :=
  let s0 := stopSessionEnh st
  let s1 := { s0 with isActive := true }
  let s2 := { s1 with inputAudioCtx := some newIn, outputAudioCtx := some newOut }
  let s3 := { s2 with stream := some ⟨micId⟩,
                      liveMicTracks := s2.liveMicTracks ++ [micId] }
  let s4 := { s3 with session := some sess }
  [s0, s1, s2, s3, s4]

/-- Closed-form value of the basic `stopSession`. -/
theorem stopSession_spec (st : AppState) :
    stopSession st =
      { isActive := false, inputLevel := 0, session := none, stream := none,
        inputAudioCtx := none, outputAudioCtx := none, sources := [],
        nextStartTime := 0,
        liveMicTracks :=
          match st.stream with
          | some m => st.liveMicTracks.filter (fun t => t ≠ m.trackId)
          | none => st.liveMicTracks } := by
  rcases st with ⟨a, l, sess, str, ic, oc, srcs, nst, mics⟩
  cases sess <;> cases str <;> cases ic <;> cases oc <;> rfl

/-- Closed-form value of the enhanced `stopSession`. -/
theorem stopSessionEnh_spec (st : AppState) :
    stopSessionEnh st = stopSession st := by
  rcases st with ⟨a, l, sess, str, ic, oc, srcs, nst, mics⟩
  cases sess <;> cases str <;> cases ic <;> cases oc <;> rfl

/-- C1: teardown is total and idempotent in both revisions: after any
call (including on a session that never fully started, i.e. any subset of
the resources still absent) the session, stream and both audio-context
references are `none`, the active source set is empty and the playback
cursor is 0; calling it again changes nothing. -/
theorem teardown_idempotent (st : AppState) :
    (stopSession st).session = none ∧
    (stopSession st).stream = none ∧
    (stopSession st).inputAudioCtx = none ∧
    (stopSession st).outputAudioCtx = none ∧
    (stopSession st).sources = [] ∧
    (stopSession st).nextStartTime = 0 ∧
    stopSession (stopSession st) = stopSession st ∧
    stopSessionEnh st = stopSession st ∧
    stopSessionEnh (stopSessionEnh st) = stopSessionEnh st := by
  rw [stopSessionEnh_spec, stopSession_spec st]
  refine ⟨rfl, rfl, rfl, rfl, rfl, rfl, rfl, rfl, rfl⟩

/-- C3: the interruption branch stops every active source without raising
(the raise of an already-finished source is swallowed by its try/catch),
empties the active set, resets the cursor to 0, and consequently the next
received chunk is scheduled at `max 0 clockNow = clockNow` — the current
output-clock time, not the pre-interruption cursor. -/
theorem interruption_resets (st : AppState) :
    (handleInterrupted st).1.sources = [] ∧
    (handleInterrupted st).1.nextStartTime = 0 ∧
    (handleInterrupted st).2 = st.sources.map tryStop ∧
    (∀ s ∈ (handleInterrupted st).2, s.stopped = true ∨ s.finished = true) ∧
    (∀ s ∈ st.sources, s.finished = true →
      sourceStop s = Except.error "InvalidStateError" ∧ tryStop s = s) ∧
    (∀ d now : ℚ, 0 ≤ now →
      scheduleAll (handleInterrupted st).1.nextStartTime [⟨d, now⟩] =
        [(now, d)]) := by
  refine ⟨rfl, rfl, rfl, ?_, ?_, ?_⟩
  · intro s hs
    simp only [handleInterrupted, List.mem_map] at hs
    obtain ⟨s0, _, hs0⟩ := hs
    subst hs0
    by_cases hf : s0.finished
    · exact Or.inr (by simp [tryStop, sourceStop, hf])
    · exact Or.inl (by simp [tryStop, sourceStop, hf])
  · intro s _ hf
    constructor
    · simp [sourceStop, hf]
    · simp [tryStop, sourceStop, hf]
  · intro d now hnow
    show scheduleAll 0 [⟨d, now⟩] = [(now, d)]
    simp only [scheduleAll]
    rw [max_eq_right hnow]

/-- Witness for `interruption_resets` at a concrete interrupted state with
one already-finished source: the next chunk is scheduled at the clock. -/
theorem interruption_resets_witness :
    scheduleAll (handleInterrupted
        { isActive := true, inputLevel := 0, session := none, stream := none,
          inputAudioCtx := none, outputAudioCtx := none,
          sources := [{ startTime := 0, duration := 1, finished := true,
                        stopped := false }],
          nextStartTime := 5, liveMicTracks := [] }).1.nextStartTime
      [⟨1, 2⟩] = [((2 : ℚ), (1 : ℚ))] :=
  (interruption_resets _).2.2.2.2.2 1 2 (by norm_num)

/-- C6: the enhanced `startLiveSession` awaits a full teardown before
acquiring anything: the first state of its trace has no session, stream or
audio contexts and no live microphone track, and every state of the trace
has at most one live microphone track — no two concurrent acquisitions.
The hypothesis states the component invariant that every live microphone
track is the one held by the current stream ref. -/
theorem start_session_no_overlap (st : AppState) (newIn newOut : AudioCtx)
    (micId : ℕ) (sess : Session)
    (hInv : ∀ t ∈ st.liveMicTracks, ∃ m, st.stream = some m ∧ m.trackId = t) :
    (startTrace st newIn newOut micId sess).head? = some (stopSessionEnh st) ∧
    (stopSessionEnh st).session = none ∧
    (stopSessionEnh st).stream = none ∧
    (stopSessionEnh st).inputAudioCtx = none ∧
    (stopSessionEnh st).outputAudioCtx = none ∧
    (stopSessionEnh st).liveMicTracks = [] ∧
    (∀ s ∈ startTrace st newIn newOut micId sess,
      s.liveMicTracks.length ≤ 1) := by
  have hmics : (stopSessionEnh st).liveMicTracks = [] := by
    rw [stopSessionEnh_spec, stopSession_spec]
    cases hstr : st.stream with
    | none =>
        simp only []
        rw [List.eq_nil_iff_forall_not_mem]
        intro t ht
        obtain ⟨m, hm, _⟩ := hInv t ht
        rw [hstr] at hm
        exact Option.noConfusion hm
    | some m =>
        simp only []
        rw [List.filter_eq_nil_iff]
        intro t ht
        obtain ⟨m2, hm2, htid⟩ := hInv t ht
        rw [hstr] at hm2
        obtain rfl := Option.some.injEq _ _ ▸ hm2
        simp [htid]
  refine ⟨rfl, ?_, ?_, ?_, ?_, hmics, ?_⟩
  · rw [stopSessionEnh_spec, stopSession_spec]
  · rw [stopSessionEnh_spec, stopSession_spec]
  · rw [stopSessionEnh_spec, stopSession_spec]
  · rw [stopSessionEnh_spec, stopSession_spec]
  · intro s hs
    simp only [startTrace, List.mem_cons, List.not_mem_nil, or_false] at hs
    rcases hs with h | h | h | h | h <;> subst h <;>
      simp [hmics]

/-- Witness for `start_session_no_overlap` at a concrete active state
holding microphone track 7: the teardown state of the trace has no live
microphone track. -/
theorem start_session_no_overlap_witness :
    (stopSessionEnh
      { isActive := true, inputLevel := 0, session := some ⟨false⟩,
        stream := some ⟨7⟩, inputAudioCtx := some ⟨CtxState.running⟩,
        outputAudioCtx := some ⟨CtxState.running⟩, sources := [],
        nextStartTime := 2, liveMicTracks := [7] }).liveMicTracks = [] :=
  (start_session_no_overlap _ ⟨CtxState.running⟩ ⟨CtxState.running⟩ 9 ⟨false⟩
    (by
      intro t ht
      simp only [List.mem_singleton] at ht
      exact ⟨⟨7⟩, rfl, by rw [ht]⟩)).2.2.2.2.2.1

/-- Counterexample to C7 as stated: in the enhanced revision the capture
handler has no `sessionRef.current` guard, so after teardown has cleared
the session reference a processed frame is still handed to the resolved
session rather than dropped. -/
theorem capture_frame_sent_after_teardown :
    (stopSessionEnh
      { isActive := true, inputLevel := 0, session := some ⟨false⟩,
        stream := none, inputAudioCtx := none, outputAudioCtx := none,
        sources := [], nextStartTime := 0, liveMicTracks := [] }).session
      = none ∧
    (onAudioProcessEnh
      (stopSessionEnh
        { isActive := true, inputLevel := 0, session := some ⟨false⟩,
          stream := none, inputAudioCtx := none, outputAudioCtx := none,
          sources := [], nextStartTime := 0, liveMicTracks := [] })
      [1 / 2]).2 = some (createBlobEnh [1 / 2]) :=
  ⟨rfl, rfl⟩

/-- C7 (amended): in the basic revision every capture frame is encoded and
sent while the session reference is set, and frames are silently dropped
once the reference has been cleared by teardown; in the enhanced revision
the send is unconditional on the session reference — the frame is handed
to the resolved session promise even after teardown. -/
theorem capture_frame_guard (st : AppState) (frame : List ℚ) :
    (st.session.isSome = true →
      (onAudioProcessBasic st frame).2 = some (createBlobBasic frame)) ∧
    (st.session = none → (onAudioProcessBasic st frame).2 = none) ∧
    (onAudioProcessEnh st frame).2 = some (createBlobEnh frame) := by
  refine ⟨?_, ?_, rfl⟩
  · intro h
    simp [onAudioProcessBasic, h]
  · intro h
    simp [onAudioProcessBasic, h]

/-- Witness for `capture_frame_guard`: with the session reference cleared
the basic handler drops the concrete frame; with it set the frame is
sent. -/
theorem capture_frame_guard_witness :
    (onAudioProcessBasic
      { isActive := false, inputLevel := 0, session := none, stream := none,
        inputAudioCtx := none, outputAudioCtx := none, sources := [],
        nextStartTime := 0, liveMicTracks := [] } [0]).2 = none ∧
    (onAudioProcessBasic
      { isActive := true, inputLevel := 0, session := some ⟨false⟩,
        stream := none, inputAudioCtx := none, outputAudioCtx := none,
        sources := [], nextStartTime := 0, liveMicTracks := [] } [0]).2 =
      some (createBlobBasic [0]) :=
  ⟨(capture_frame_guard _ [0]).2.1 rfl, (capture_frame_guard _ [0]).1 rfl⟩

/-! ### Messages and the transcript assembler (basic revision) -/

/-- Message role (`'user' | 'maya'` in types.ts). -/
inductive Role where
  | user
  | maya
  deriving Repr, DecidableEq

/-- `Message` of the basic revision's types.ts: role, text, timestamp
(modelled as a tick count). -/
structure Message where
  role : Role
  text : String
  timestamp : ℕ
  deriving Repr, DecidableEq

/-- `addMessage` of the basic revision (part_000 lines 49-51): plain
append. -/
def addMessage (msgs : List Message) (role : Role) (text : String)
    (now : ℕ) : List Message :=
  msgs ++ [⟨role, text, now⟩]

/-- The message list, the two transcription buffers and the clock, as seen
by the live `onmessage` handler of the basic revision. -/
structure LiveMsgState where
  messages : List Message
  currentInputTranscription : String
  currentOutputTranscription : String
  now : ℕ
  deriving Repr, DecidableEq

/-- The turn-complete branch of `onmessage` (part_000 lines 160-167): a
user message is emitted if the input buffer is non-empty (JS truthiness of
a string), then an assistant message if the output buffer is non-empty,
then both buffers are reset. -/
def handleTurnComplete (st : LiveMsgState) : LiveMsgState :=
  let userInput := st.currentInputTranscription
  let mayaOutput := st.currentOutputTranscription
  let msgs1 :=
    if userInput ≠ "" then addMessage st.messages Role.user userInput st.now
    else st.messages
  let msgs2 :=
    if mayaOutput ≠ "" then addMessage msgs1 Role.maya mayaOutput st.now
    else msgs1
  { st with messages := msgs2,
            currentInputTranscription := "",
            currentOutputTranscription := "" }

/-- C5: one turn-complete signal emits a user message exactly when the
input buffer is non-empty and then an assistant message exactly when the
output buffer is non-empty (user before assistant), and resets both
buffers: two messages when both buffers are non-empty, zero when both are
empty, and in general the count grows by one per non-empty buffer. -/
theorem turn_complete_emits (st : LiveMsgState) :
    (handleTurnComplete st).currentInputTranscription = "" ∧
    (handleTurnComplete st).currentOutputTranscription = "" ∧
    (st.currentInputTranscription ≠ "" → st.currentOutputTranscription ≠ "" →
      (handleTurnComplete st).messages =
        st.messages ++
          [⟨Role.user, st.currentInputTranscription, st.now⟩,
           ⟨Role.maya, st.currentOutputTranscription, st.now⟩]) ∧
    (st.currentInputTranscription = "" → st.currentOutputTranscription = "" →
      (handleTurnComplete st).messages = st.messages) ∧
    (handleTurnComplete st).messages.length =
      st.messages.length +
        (if st.currentInputTranscription ≠ "" then 1 else 0) +
        (if st.currentOutputTranscription ≠ "" then 1 else 0) := by
  refine ⟨rfl, rfl, ?_, ?_, ?_⟩
  · intro h1 h2
    simp [handleTurnComplete, addMessage, h1, h2]
  · intro h1 h2
    simp [handleTurnComplete, addMessage, h1, h2]
  · by_cases h1 : st.currentInputTranscription = "" <;>
      by_cases h2 : st.currentOutputTranscription = "" <;>
      simp [handleTurnComplete, addMessage, h1, h2]

/-- Witness for `turn_complete_emits`: a turn-complete with both buffers
non-empty emits exactly the user message followed by the assistant
message. -/
theorem turn_complete_emits_witness :
    (handleTurnComplete
      { messages := [], currentInputTranscription := "hello",
        currentOutputTranscription := "hi there", now := 3 }).messages =
      [⟨Role.user, "hello", 3⟩, ⟨Role.maya, "hi there", 3⟩] := by
  have h := (turn_complete_emits
    { messages := [], currentInputTranscription := "hello",
      currentOutputTranscription := "hi there", now := 3 }).2.2.1
    (by decide) (by decide)
  simpa using h

/-! ### Bounded persisted history (enhanced revision) -/

/-- `Message` of the enhanced revision's types.ts plus the generated `id`
used for deletion: role, text, timestamp, optional image. -/
structure MessageEnh where
  id : String
  role : Role
  text : String
  timestamp : ℕ
  imageUrl : Option String
  deriving Repr, DecidableEq

/-- `addMessage` of the enhanced revision (part_000 lines 482-491):
`setMessages(prev => [...prev, newMessage].slice(-50))` — append, then
keep only the last 50 entries. -/
def addMessageEnh (msgs : List MessageEnh) (m : MessageEnh) :
    List MessageEnh :=
  (msgs ++ [m]).drop ((msgs ++ [m]).length - 50)

/-- C9: after every `addMessage` of the enhanced revision the stored list
holds at most the 50 most recent messages in their original order: its
length is `min (old + 1) 50`, it is a suffix of the appended list (oldest
entries dropped first, order preserved, the new message retained), and
nothing is dropped while the history is still short.  In particular the
≤ 50 bound is an invariant of every call.  The persistence effect
(part_000 lines 465-470) writes exactly this list, so the persisted
sequence obeys the same bound. -/
theorem addMessage_bounded (msgs : List MessageEnh) (m : MessageEnh) :
    (addMessageEnh msgs m).length ≤ 50 ∧
    (addMessageEnh msgs m).length = min (msgs.length + 1) 50 ∧
    List.IsSuffix (addMessageEnh msgs m) (msgs ++ [m]) ∧
    addMessageEnh msgs m =
      msgs.drop (msgs.length + 1 - 50) ++ [m] ∧
    (msgs.length ≤ 49 → addMessageEnh msgs m = msgs ++ [m]) := by
  have hlen : (msgs ++ [m]).length = msgs.length + 1 := by
    simp
  refine ⟨?_, ?_, ?_, ?_, ?_⟩
  · rw [addMessageEnh, List.length_drop, hlen]
    omega
  · rw [addMessageEnh, List.length_drop, hlen]
    omega
  · exact ⟨(msgs ++ [m]).take ((msgs ++ [m]).length - 50),
      List.take_append_drop _ _⟩
  · rw [addMessageEnh, hlen,
      List.drop_append_of_le_length (by omega : msgs.length + 1 - 50 ≤ msgs.length)]
  · intro h
    rw [addMessageEnh, hlen]
    have h0 : msgs.length + 1 - 50 = 0 := by omega
    rw [h0, List.drop_zero]

/-- Witness for `addMessage_bounded`: appending to a short concrete
history keeps every entry. -/
theorem addMessage_bounded_witness :
    addMessageEnh [⟨"a", Role.user, "hi", 0, none⟩]
        ⟨"b", Role.maya, "hello", 1, none⟩ =
      [⟨"a", Role.user, "hi", 0, none⟩, ⟨"b", Role.maya, "hello", 1, none⟩] :=
  (addMessage_bounded [⟨"a", Role.user, "hi", 0, none⟩]
    ⟨"b", Role.maya, "hello", 1, none⟩).2.2.2.2 (by decide)

/-! ### Non-streaming text-prompt path (`handleDeepPrompt`) -/

/-- `MayaMode` of the enhanced types.ts (the basic revision lacks
`IMAGE`). -/
inductive MayaMode where
  | LIVE
  | DEEP_THOUGHT
  | SEARCH
  | IMAGE
  deriving Repr, DecidableEq

/-- Outcome of one awaited `generateContent` call: a resolved response
(`response.text`, possibly absent, plus any inline image data parts) or a
rejection. -/
inductive Outcome where
  | success (text : Option String) (images : List String)
  | failure (err : String)
  deriving Repr, DecidableEq

/-- Character-list version of "starts with". -/
def charsLeadWith : List Char → List Char → Bool
  | _, [] => true
  | [], _ :: _ => false
  | a :: as, b :: bs => a = b && charsLeadWith as bs

/-- Character-list version of "contains the pattern somewhere". -/
def charsHave : List Char → List Char → Bool
  | [], pat => pat.isEmpty
  | a :: rest, pat => charsLeadWith (a :: rest) pat || charsHave rest pat

/-- `msg.includes(pat)` on strings. -/
def strHas (hay pat : String) : Bool :=
  charsHave hay.toList pat.toList

/-- `handleApiError` of the enhanced revision (part_000 lines 534-541):
quota markers in the error text produce the dedicated advisory message,
anything else the truncated generic failure message. -/
def handleApiError (err : String) : String :=
  if strHas err "429" || strHas err "quota" then
    "[System: Neural Link saturated. Please wait a moment for the pathways to clear.]"
  else
    "[System Link Failure: " ++ err.take 50 ++ "...]"

/-- Prompt-path state of the enhanced revision. -/
structure PromptStateEnh where
  messages : List MessageEnh
  isThinking : Bool
  mode : MayaMode
  now : ℕ
  deriving Repr, DecidableEq

/-- `handleDeepPrompt` of the enhanced revision (part_000 lines 640-683)
as the sequence of states it passes through, together with the number of
remote requests issued.  The guard
`if (!text.trim() || isThinking) return;` rejects a blank prompt and any
submission made while one is outstanding; an accepted submission sets the
busy flag and appends the user message, awaits the mode's request
(`out`), appends the assistant message (fallback text on an absent
response, `handleApiError` text on rejection), and the `finally` clears
the busy flag.  `idU`/`idM` are the random ids generated for the two
appended messages. -/
def handleDeepPromptEnh (st : PromptStateEnh) (text : String) (out : Outcome)
    (idU idM : String) : List PromptStateEnh × ℕ :=
  if text.trim = "" ∨ st.isThinking = true then ([st], 0)
  else
    let s1 := { st with
      isThinking := true
      messages := (addMessageEnh st.messages
        ⟨idU, Role.user, text, st.now, none⟩) }
    let s2 :=
      if st.mode = MayaMode.LIVE then s1  -- no branch of the if/else-if chain fires
      else
        match out with
        | Outcome.failure err =>
            { s1 with messages := (addMessageEnh s1.messages
                ⟨idM, Role.maya, handleApiError err, st.now, none⟩) }
        | Outcome.success t imgs =>
            match st.mode with
            | MayaMode.DEEP_THOUGHT =>
                { s1 with messages := (addMessageEnh s1.messages
                    ⟨idM, Role.maya, t.getD "Thinking is a complex dance.",
                      st.now, none⟩) }
            | MayaMode.SEARCH =>
                { s1 with messages := (addMessageEnh s1.messages
                    ⟨idM, Role.maya,
                      t.getD "Gathered some fresh insights for you.",
                      st.now, none⟩) }
            | MayaMode.IMAGE =>
                { s1 with messages := (addMessageEnh s1.messages
                    ⟨idM, Role.maya, "Vision manifestation complete.",
                      st.now,
                      some (imgs.foldl
                        (fun _ i => "data:image/png;base64," ++ i) "")⟩) }
            | MayaMode.LIVE => s1
    let s3 := { s2 with isThinking := false }  -- finally { setIsThinking(false) }
    ([s1, s2, s3], if st.mode = MayaMode.LIVE then 0 else 1)

/-- Prompt-path state of the basic revision. -/
structure PromptStateBasic where
  messages : List Message
  isThinking : Bool
  mode : MayaMode
  now : ℕ
  deriving Repr, DecidableEq

/-- `handleDeepPrompt` of the basic revision (part_000 lines 225-262): no
busy-flag guard inside the function — only a blank-prompt guard; both
branches of the mode test issue one request; the `catch` appends the
apology message and the `finally` clears the busy flag. -/
def handleDeepPromptBasic (st : PromptStateBasic) (text : String)
    (out : Outcome) : List PromptStateBasic × ℕ :=
  if text.trim = "" then ([st], 0)
  else
    let s1 := { st with
      isThinking := true
      messages := addMessage st.messages Role.user text st.now }
    let s2 :=
      match out with
      | Outcome.success t _ =>
          { s1 with messages := (addMessage s1.messages Role.maya
              (t.getD "I'm sorry, I couldn't process that.") st.now) }
      | Outcome.failure _ =>
          { s1 with messages := (addMessage s1.messages Role.maya
              "Oops, something went wrong while I was thinking. Let's try again."
              st.now) }
    let s3 := { s2 with isThinking := false }
    ([s1, s2, s3], 1)

/-- The basic revision's submission entry point: `handleDeepPrompt` is
reachable only from the journal input's `onKeyDown` (part_000 lines
305-316), and that input carries
`disabled={mode === MayaMode.LIVE || isThinking}` — a disabled input
fires no key events, so a submission while busy never reaches the
handler. -/
def submitPromptBasic (st : PromptStateBasic) (text : String)
    (out : Outcome) : List PromptStateBasic × ℕ :=
  if st.mode = MayaMode.LIVE ∨ st.isThinking = true then ([st], 0)
  else handleDeepPromptBasic st text out

/-- C8: a submission made while the busy flag is set is rejected without
issuing a request or appending any message, in both revisions (via the
in-function guard in the enhanced revision, via the disabled input in the
basic one); an accepted submission sets the busy flag immediately (the
user message appended with it) and the trace ends in a state with the
flag cleared, for a resolved and for a failed request alike. -/
theorem busy_flag_gates (stE : PromptStateEnh) (stB : PromptStateBasic)
    (text : String) (out : Outcome) (idU idM : String) :
    (stE.isThinking = true →
      handleDeepPromptEnh stE text out idU idM = ([stE], 0)) ∧
    (stB.isThinking = true → submitPromptBasic stB text out = ([stB], 0)) ∧
    (stE.isThinking = false → text.trim ≠ "" →
      ∃ s1 s2 : PromptStateEnh,
        handleDeepPromptEnh stE text out idU idM =
          ([s1, s2, { s2 with isThinking := false }],
            if stE.mode = MayaMode.LIVE then 0 else 1) ∧
        s1.isThinking = true ∧
        s1.messages = addMessageEnh stE.messages
          ⟨idU, Role.user, text, stE.now, none⟩) ∧
    (stB.isThinking = false → stB.mode ≠ MayaMode.LIVE → text.trim ≠ "" →
      ∃ s1 s2 : PromptStateBasic,
        submitPromptBasic stB text out =
          ([s1, s2, { s2 with isThinking := false }], 1) ∧
        s1.isThinking = true ∧
        s1.messages = addMessage stB.messages Role.user text stB.now) := by
  refine ⟨?_, ?_, ?_, ?_⟩
  · intro h
    rw [handleDeepPromptEnh, if_pos (Or.inr h)]
  · intro h
    rw [submitPromptBasic, if_pos (Or.inr h)]
  · intro h1 h2
    rw [handleDeepPromptEnh, if_neg (by simp [h1, h2])]
    refine ⟨{ stE with
      isThinking := true
      messages := addMessageEnh stE.messages
        ⟨idU, Role.user, text, stE.now, none⟩ }, _, rfl, rfl, rfl⟩
  · intro h1 h2 h3
    rw [submitPromptBasic, if_neg (by simp [h1, h2]),
      handleDeepPromptBasic, if_neg h3]
    refine ⟨{ stB with
      isThinking := true
      messages := addMessage stB.messages Role.user text stB.now }, _,
      rfl, rfl, rfl⟩

/-- Witness for `busy_flag_gates`: a concrete busy state rejects a
submission unchanged in both revisions. -/
theorem busy_flag_gates_witness :
    handleDeepPromptEnh
        { messages := [], isThinking := true,
          mode := MayaMode.DEEP_THOUGHT, now := 0 } "hi"
        (Outcome.success (some "yo") []) "a" "b" =
      ([{ messages := [], isThinking := true,
          mode := MayaMode.DEEP_THOUGHT, now := 0 }], 0) ∧
    submitPromptBasic
        { messages := [], isThinking := true,
          mode := MayaMode.SEARCH, now := 0 } "hi"
        (Outcome.success (some "yo") []) =
      ([{ messages := [], isThinking := true,
          mode := MayaMode.SEARCH, now := 0 }], 0) :=
  ⟨(busy_flag_gates _
      { messages := [], isThinking := true, mode := MayaMode.SEARCH, now := 0 }
      "hi" (Outcome.success (some "yo") []) "a" "b").1 rfl,
   (busy_flag_gates
      { messages := [], isThinking := true,
        mode := MayaMode.DEEP_THOUGHT, now := 0 } _
      "hi" (Outcome.success (some "yo") []) "a" "b").2.1 rfl⟩

end Maya
